import Mathlib

/-!
Verification of the session/move persistence core of `game_db.py`.

The store is modelled as the contents of the two SQLite tables created by
`init_db`: `sessions(id, player_count)` and
`moves(session_id, player_id, choice)`, each as a list of rows in insertion
(ROWID) order.  The configuration value `game_parameters.MAX_PLAYERS`
(a positive integer, default 2) is passed explicitly as `maxP`.  Fallible
operations return `Except String`, the `String` being the exact `ValueError`
message the Python code raises.
-/

namespace GameDb

/-- A row of the `moves` table: `(session_id, player_id, choice)`. -/
structure MoveRow where
  session_id : String
  player_id : String
  choice : String
  deriving DecidableEq, Repr

/-- The persistent store: the `sessions` table as `(id, player_count)` rows and
the `moves` table, both in insertion order. -/
structure Store where
  sessions : List (String × Nat)
  moves : List MoveRow
  deriving DecidableEq, Repr

/-- `SELECT player_count FROM sessions WHERE id = ?`: the first row whose `id`
matches (`id` is the primary key, so at most one row matches in a store the
schema admits). -/
def lookupSession : List (String × Nat) → String → Option Nat
  | [], _ => none
  | e :: rest, sid => if e.1 = sid then some e.2 else lookupSession rest sid

/-- `SELECT COUNT(*) FROM moves WHERE session_id = ?`. -/
def moveCount (mvs : List MoveRow) (sid : String) : Nat :=
  (mvs.filter (fun m => m.session_id == sid)).length

/-- Whether a `(session_id, player_id)` row exists in `moves`; this is the
condition under which the `INSERT` in `save_move` hits the
`UNIQUE (session_id, player_id)` constraint. -/
def hasMove (mvs : List MoveRow) (sid pid : String) : Bool :=
  mvs.any (fun m => m.session_id == sid && m.player_id == pid)

/-- The choice stored for `(session_id, player_id)`, if any. -/
def findMove (mvs : List MoveRow) (sid pid : String) : Option String :=
  (mvs.find? (fun m => m.session_id == sid && m.player_id == pid)).map
    MoveRow.choice

/-- The phase derivation at the end of `get_state`: `waiting_for_opponent` if
`players < MAX_PLAYERS`, else `waiting_for_moves` if `moves < players`, else
`finished`. -/
def phaseOf (maxP players moves : Nat) : String :=
  if players < maxP then "waiting_for_opponent"
  else if moves < players then "waiting_for_moves"
  else "finished"

/-- The dictionary `get_state` returns: `{"players": …, "moves": …, "phase": …}`. -/
structure GameState where
  players : Nat
  moves : Nat
  phase : String
  deriving DecidableEq, Repr

/-- `get_state(session_id)`: raises
`ValueError(f"Unknown session_id: {session_id}")` when no `sessions` row
matches, otherwise returns the player count, the move count and the derived
phase. -/
def get_state (maxP : Nat) (s : Store) (sid : String) : Except String GameState :=
  match lookupSession s.sessions sid with
  | none => .error ("Unknown session_id: " ++ sid)
  | some players =>
      let mv := moveCount s.moves sid
      .ok { players := players, moves := mv, phase := phaseOf maxP players mv }

/-- `save_move(session_id, player_id, choice)`: computes `get_state` first
(propagating its error), rejects phase `waiting_for_opponent` and `finished`
with the exact `ValueError` messages of the source, then attempts the
`INSERT`; the `UNIQUE (session_id, player_id)` constraint makes the insert
fail (as `sqlite3.IntegrityError`, re-raised as
`ValueError("Duplicate move or invalid session.")`) exactly when the pair is
already present — the session itself exists here, so the foreign key cannot
be the cause.  On an error the transaction is rolled back, so the store is
unchanged (the function returns no new store). -/
def save_move (maxP : Nat) (s : Store) (sid pid choice : String) :
    Except String Store :=
  match get_state maxP s sid with
  | .error e => .error e
  | .ok st =>
      if st.phase = "waiting_for_opponent" then
        .error ("Cannot submit moves until " ++ toString maxP ++
          " players have joined.")
      else if st.phase = "finished" then
        .error "Session already finished; no further moves accepted."
      else if hasMove s.moves sid pid then
        .error "Duplicate move or invalid session."
      else
        .ok ⟨s.sessions, s.moves ++ [⟨sid, pid, choice⟩]⟩

/-- A record of the list `get_results` returns: `{"player": …, "choice": …}`. -/
structure ResultRow where
  player : String
  choice : String
  deriving DecidableEq, Repr

/-- `get_results(session_id)`:
`SELECT player_id, choice FROM moves WHERE session_id = ? ORDER BY ROWID` —
the rows for the session in insertion order, with no existence or phase
check. -/
def get_results (s : Store) (sid : String) : List ResultRow :=
  (s.moves.filter (fun m => m.session_id == sid)).map
    (fun m => ⟨m.player_id, m.choice⟩)

/-- The session-search of `join_session`:
`SELECT id, player_count FROM sessions WHERE player_count < ? ORDER BY
player_count DESC LIMIT 1`.  SQLite leaves the choice among tied maxima
unspecified; we fix the first row attaining the maximal `player_count`
(`List.argmax` keeps the earliest maximum). -/
def selectOpen (maxP : Nat) (s : Store) : Option (String × Nat) :=
  (s.sessions.filter (fun e => decide (e.2 < maxP))).argmax Prod.snd

/-- The conditional update of `join_session`:
`UPDATE sessions SET player_count = player_count + 1 WHERE id = ? AND
player_count = ?` — every row matching both conditions is incremented, the
rest are untouched. -/
def casUpdate (rows : List (String × Nat)) (sid : String) (pcount : Nat) :
    List (String × Nat) :=
  rows.map (fun e => if e.1 = sid ∧ e.2 = pcount then (e.1, e.2 + 1) else e)

/-- The create-branch of `join_session`'s loop: try candidate UUIDs in turn;
`INSERT INTO sessions (id, player_count) VALUES (?, 1)` succeeds as soon as
the id does not collide with an existing primary key (an
`sqlite3.IntegrityError` collision makes the loop `continue` with the next
fresh id).  `none` only when the candidate supply is exhausted. -/
def insertFresh (s : Store) : List String → Option (String × Store)
  | [] => none
  | sid :: rest =>
      if (lookupSession s.sessions sid).isSome then insertFresh s rest
      else some (sid, ⟨s.sessions ++ [(sid, 1)], s.moves⟩)

/-- `join_session()`, run as one sequential call: the freshly generated
player UUID and the stream of candidate session UUIDs are passed in
explicitly.  Sequentially the conditional update always affects exactly one
row (the row cannot have changed between the `SELECT` and the `UPDATE`), so
the lost-race `continue` and the `ValueError("Failed to join existing
session")` path (an `IntegrityError` from the `CHECK(player_count BETWEEN 0
AND MAX_PLAYERS)` bound, impossible when the observed count is below
`MAX_PLAYERS`) do not occur. -/
def join_session (maxP : Nat) (s : Store) (player_id : String)
    (ids : List String) : Option (String × String × Store) :=
  match selectOpen maxP s with
  | some r => some (r.1, player_id, ⟨casUpdate s.sessions r.1 r.2, s.moves⟩)
  | none => (insertFresh s ids).map (fun p => (p.1, player_id, p.2))

/-- One atomic store mutation, over-approximating what any interleaving of
concurrent `join_session` / `save_move` calls can do to the store:
`joinCAS` is the conditional `UPDATE` fired by a joiner that observed
`pcount < MAX_PLAYERS` in an earlier `SELECT` (the observation may be stale;
the `WHERE player_count = ?` clause is what re-checks it); `joinCreate` is
the successful `INSERT` of a fresh session row; `moveInsert` is the `INSERT`
of an arbitrary move row (no precondition, which covers every interleaving
of `save_move`'s separate read and insert transactions). -/
inductive Step (maxP : Nat) : Store → Store → Prop
  | joinCAS (s : Store) (sid : String) (pcount : Nat) (h : pcount < maxP) :
      Step maxP s ⟨casUpdate s.sessions sid pcount, s.moves⟩
  | joinCreate (s : Store) (sid : String)
      (h : lookupSession s.sessions sid = none) :
      Step maxP s ⟨s.sessions ++ [(sid, 1)], s.moves⟩
  | moveInsert (s : Store) (m : MoveRow) :
      Step maxP s ⟨s.sessions, s.moves ++ [m]⟩

/-- Store states reachable from the empty store `init_db` leaves behind. -/
def Reachable (maxP : Nat) (s : Store) : Prop :=
  Relation.ReflTransGen (Step maxP) ⟨[], []⟩ s

/-- Rank of a phase string in the state machine
`waiting_for_opponent → waiting_for_moves → finished`. -/
def phaseRank (ph : String) : Nat :=
  if ph = "waiting_for_opponent" then 0
  else if ph = "waiting_for_moves" then 1
  else 2

/-! ### Helper lemmas about the table primitives -/

theorem lookupSession_append (rows rows2 : List (String × Nat)) (sid : String) :
    lookupSession (rows ++ rows2) sid =
      ((lookupSession rows sid).or (lookupSession rows2 sid)) := by
  induction rows with
  | nil => simp [lookupSession]
  | cons e rest ih =>
      by_cases h : e.1 = sid <;> simp [lookupSession, h, ih]

theorem lookupSession_casUpdate (rows : List (String × Nat))
    (sid2 : String) (pcount : Nat) (sid : String) :
    lookupSession (casUpdate rows sid2 pcount) sid =
      (lookupSession rows sid).map
        (fun c => if sid = sid2 ∧ c = pcount then c + 1 else c) := by
  induction rows with
  | nil => rfl
  | cons e rest ih =>
      obtain ⟨a, c⟩ := e
      by_cases h : a = sid
      · subst h
        by_cases hg : a = sid2 ∧ c = pcount
        · obtain ⟨h1, h2⟩ := hg
          subst h1; subst h2
          simp [casUpdate, lookupSession]
        · simp [casUpdate, lookupSession, hg]
      · by_cases hg : a = sid2 ∧ c = pcount
        · obtain ⟨h1, h2⟩ := hg
          subst h1; subst h2
          simpa [casUpdate, lookupSession, h] using ih
        · simpa [casUpdate, lookupSession, hg, h] using ih

theorem lookupSession_of_mem_nodup {rows : List (String × Nat)}
    (hnd : (rows.map Prod.fst).Nodup) {e : String × Nat} (he : e ∈ rows) :
    lookupSession rows e.1 = some e.2 := by
  induction rows with
  | nil => cases he
  | cons a rest ih =>
      rw [List.map_cons, List.nodup_cons] at hnd
      rcases List.mem_cons.mp he with rfl | hmem
      · simp [lookupSession]
      · have hne : a.1 ≠ e.1 := by
          intro hc
          exact hnd.1 (hc ▸ List.mem_map_of_mem Prod.fst hmem)
        rw [lookupSession, if_neg hne]
        exact ih hnd.2 hmem

theorem moveCount_append (mvs mvs2 : List MoveRow) (sid : String) :
    moveCount (mvs ++ mvs2) sid = moveCount mvs sid + moveCount mvs2 sid := by
  simp [moveCount, List.filter_append]

theorem moveCount_single (m : MoveRow) (sid : String) :
    moveCount [m] sid = if m.session_id = sid then 1 else 0 := by
  by_cases h : m.session_id = sid <;> simp [moveCount, List.filter_cons, h]

/-! ### Characterising the derived phase -/

theorem phaseOf_eq_wfo {maxP p mv : Nat} :
    phaseOf maxP p mv = "waiting_for_opponent" ↔ p < maxP := by
  unfold phaseOf
  by_cases h : p < maxP
  · simp [h]
  · rw [if_neg h]
    by_cases h2 : mv < p
    · rw [if_pos h2]
      exact ⟨fun hh => absurd hh (by decide), fun hh => absurd hh h⟩
    · rw [if_neg h2]
      exact ⟨fun hh => absurd hh (by decide), fun hh => absurd hh h⟩

theorem phaseOf_eq_wfm {maxP p mv : Nat} :
    phaseOf maxP p mv = "waiting_for_moves" ↔ maxP ≤ p ∧ mv < p := by
  unfold phaseOf
  by_cases h : p < maxP
  · rw [if_pos h]
    exact ⟨fun hh => absurd hh (by decide),
      fun hh => absurd h (Nat.not_lt.mpr hh.1)⟩
  · rw [if_neg h]
    by_cases h2 : mv < p
    · rw [if_pos h2]
      simp [Nat.le_of_not_lt h, h2]
    · rw [if_neg h2]
      exact ⟨fun hh => absurd hh (by decide), fun hh => absurd hh.2 h2⟩

theorem phaseOf_eq_fin {maxP p mv : Nat} :
    phaseOf maxP p mv = "finished" ↔ maxP ≤ p ∧ p ≤ mv := by
  unfold phaseOf
  by_cases h : p < maxP
  · rw [if_pos h]
    exact ⟨fun hh => absurd hh (by decide),
      fun hh => absurd h (Nat.not_lt.mpr hh.1)⟩
  · rw [if_neg h]
    by_cases h2 : mv < p
    · rw [if_pos h2]
      exact ⟨fun hh => absurd hh (by decide),
        fun hh => absurd h2 (Nat.not_lt.mpr hh.2)⟩
    · rw [if_neg h2]
      simp [Nat.le_of_not_lt h, Nat.le_of_not_lt h2]

theorem phaseRank_le_two (ph : String) : phaseRank ph ≤ 2 := by
  unfold phaseRank
  by_cases h1 : ph = "waiting_for_opponent"
  · simp [h1]
  · by_cases h2 : ph = "waiting_for_moves" <;> simp [h1, h2]

theorem phaseRank_phaseOf_of_lt {maxP p mv : Nat} (h : p < maxP) :
    phaseRank (phaseOf maxP p mv) = 0 := by
  rw [phaseOf, if_pos h]; rfl

theorem phaseRank_mono_moves {maxP p mv mv2 : Nat} (h : mv ≤ mv2) :
    phaseRank (phaseOf maxP p mv) ≤ phaseRank (phaseOf maxP p mv2) := by
  by_cases hp : p < maxP
  · rw [phaseRank_phaseOf_of_lt hp, phaseRank_phaseOf_of_lt hp]
  · by_cases h2 : mv2 < p
    · have h1 : mv < p := Nat.lt_of_le_of_lt h h2
      rw [phaseOf_eq_wfm.mpr ⟨Nat.le_of_not_lt hp, h1⟩,
        phaseOf_eq_wfm.mpr ⟨Nat.le_of_not_lt hp, h2⟩]
    · have h3 : phaseOf maxP p mv2 = "finished" :=
        phaseOf_eq_fin.mpr ⟨Nat.le_of_not_lt hp, Nat.le_of_not_lt h2⟩
      rw [h3]
      have h4 : phaseRank "finished" = 2 := by decide
      rw [h4]
      exact phaseRank_le_two _

/-! ### Branch lemmas for `get_state` and `save_move` -/

theorem get_state_eq_none {maxP : Nat} {s : Store} {sid : String}
    (h : lookupSession s.sessions sid = none) :
    get_state maxP s sid = .error ("Unknown session_id: " ++ sid) := by
  unfold get_state
  rw [h]

theorem get_state_eq_some {maxP : Nat} {s : Store} {sid : String} {p : Nat}
    (h : lookupSession s.sessions sid = some p) :
    get_state maxP s sid =
      .ok ⟨p, moveCount s.moves sid, phaseOf maxP p (moveCount s.moves sid)⟩ := by
  unfold get_state
  rw [h]

theorem save_move_eq_none {maxP : Nat} {s : Store} {sid pid choice : String}
    (h : lookupSession s.sessions sid = none) :
    save_move maxP s sid pid choice =
      .error ("Unknown session_id: " ++ sid) := by
  unfold save_move
  rw [get_state_eq_none h]

theorem save_move_eq_wfo {maxP : Nat} {s : Store} {sid pid choice : String}
    {p : Nat} (h : lookupSession s.sessions sid = some p) (hp : p < maxP) :
    save_move maxP s sid pid choice =
      .error ("Cannot submit moves until " ++ toString maxP ++
        " players have joined.") := by
  unfold save_move
  rw [get_state_eq_some h]
  dsimp only
  rw [phaseOf_eq_wfo.mpr hp, if_pos rfl]

theorem save_move_eq_fin {maxP : Nat} {s : Store} {sid pid choice : String}
    {p : Nat} (h : lookupSession s.sessions sid = some p) (hp : maxP ≤ p)
    (hmv : p ≤ moveCount s.moves sid) :
    save_move maxP s sid pid choice =
      .error "Session already finished; no further moves accepted." := by
  unfold save_move
  rw [get_state_eq_some h]
  dsimp only
  rw [phaseOf_eq_fin.mpr ⟨hp, hmv⟩, if_neg (by decide), if_pos rfl]

theorem save_move_eq_dup {maxP : Nat} {s : Store} {sid pid choice : String}
    {p : Nat} (h : lookupSession s.sessions sid = some p) (hp : maxP ≤ p)
    (hmv : moveCount s.moves sid < p)
    (hdup : hasMove s.moves sid pid = true) :
    save_move maxP s sid pid choice =
      .error "Duplicate move or invalid session." := by
  unfold save_move
  rw [get_state_eq_some h]
  dsimp only
  rw [phaseOf_eq_wfm.mpr ⟨hp, hmv⟩, if_neg (by decide), if_neg (by decide),
    if_pos hdup]

theorem save_move_eq_ins {maxP : Nat} {s : Store} {sid pid choice : String}
    {p : Nat} (h : lookupSession s.sessions sid = some p) (hp : maxP ≤ p)
    (hmv : moveCount s.moves sid < p)
    (hdup : hasMove s.moves sid pid = false) :
    save_move maxP s sid pid choice =
      .ok ⟨s.sessions, s.moves ++ [⟨sid, pid, choice⟩]⟩ := by
  unfold save_move
  rw [get_state_eq_some h]
  dsimp only
  rw [phaseOf_eq_wfm.mpr ⟨hp, hmv⟩, if_neg (by decide), if_neg (by decide),
    if_neg (by simp [hdup])]

theorem save_move_ok_inv {maxP : Nat} {s : Store} {sid pid choice : String}
    {t : Store} (h : save_move maxP s sid pid choice = .ok t) :
    ∃ p, lookupSession s.sessions sid = some p ∧ maxP ≤ p ∧
      moveCount s.moves sid < p ∧ hasMove s.moves sid pid = false ∧
      t = ⟨s.sessions, s.moves ++ [⟨sid, pid, choice⟩]⟩ := by
  cases hl : lookupSession s.sessions sid with
  | none =>
      rw [save_move_eq_none hl] at h
      exact Except.noConfusion h
  | some p =>
      by_cases hp : p < maxP
      · rw [save_move_eq_wfo hl hp] at h
        exact Except.noConfusion h
      · by_cases hmv : moveCount s.moves sid < p
        · cases hdup : hasMove s.moves sid pid with
          | true =>
              rw [save_move_eq_dup hl (Nat.le_of_not_lt hp) hmv hdup] at h
              exact Except.noConfusion h
          | false =>
              rw [save_move_eq_ins hl (Nat.le_of_not_lt hp) hmv hdup] at h
              injection h with h2
              exact ⟨p, rfl, Nat.le_of_not_lt hp, hmv, rfl, h2.symm⟩
        · rw [save_move_eq_fin hl (Nat.le_of_not_lt hp)
            (Nat.le_of_not_lt hmv)] at h
          exact Except.noConfusion h

/-! ### Preservation lemmas along concurrent steps -/

theorem step_counts_bounded {maxP : Nat} {t t2 : Store}
    (hstep : Step maxP t t2) (hmax : 0 < maxP)
    (h : ∀ e ∈ t.sessions, e.2 ≤ maxP) : ∀ e ∈ t2.sessions, e.2 ≤ maxP := by
  cases hstep with
  | joinCAS sid pcount hlt =>
      intro e he
      obtain ⟨a, ha, rfl⟩ := List.mem_map.mp he
      by_cases hg : a.1 = sid ∧ a.2 = pcount
      · obtain ⟨hg1, hg2⟩ := hg
        rw [if_pos ⟨hg1, hg2⟩]
        show a.2 + 1 ≤ maxP
        rw [hg2]
        exact hlt
      · rw [if_neg hg]
        exact h a ha
  | joinCreate sid hf =>
      intro e he
      rcases List.mem_append.mp he with h1 | h1
      · exact h e h1
      · have he2 : e = (sid, 1) := by simpa using h1
        rw [he2]
        exact hmax
  | moveInsert m => exact h

theorem step_findMove {maxP : Nat} {t t2 : Store} (hstep : Step maxP t t2)
    {sid pid c : String} (h : findMove t.moves sid pid = some c) :
    findMove t2.moves sid pid = some c := by
  cases hstep with
  | joinCAS sid2 pcount hlt => exact h
  | joinCreate sid2 hf => exact h
  | moveInsert m =>
      unfold findMove at h ⊢
      obtain ⟨row, hrow, hc⟩ := Option.map_eq_some'.mp h
      rw [List.find?_append, hrow]
      simp [hc]

theorem step_session_mono {maxP : Nat} {t t2 : Store}
    (hstep : Step maxP t t2) (sid : String) {c : Nat}
    (h : lookupSession t.sessions sid = some c) :
    ∃ c2, lookupSession t2.sessions sid = some c2 ∧ c ≤ c2 ∧
      moveCount t.moves sid ≤ moveCount t2.moves sid ∧
      phaseRank (phaseOf maxP c (moveCount t.moves sid)) ≤
        phaseRank (phaseOf maxP c2 (moveCount t2.moves sid)) := by
  cases hstep with
  | joinCAS sid2 pcount hlt =>
      by_cases hg : sid = sid2 ∧ c = pcount
      · obtain ⟨hg1, hg2⟩ := hg
        subst hg2
        refine ⟨c + 1, ?_, Nat.le_succ c, Nat.le_refl _, ?_⟩
        · show lookupSession (casUpdate t.sessions sid2 c) sid = some (c + 1)
          rw [lookupSession_casUpdate, h, Option.map_some', if_pos ⟨hg1, rfl⟩]
        · rw [phaseRank_phaseOf_of_lt hlt]
          exact Nat.zero_le _
      · refine ⟨c, ?_, Nat.le_refl c, Nat.le_refl _, Nat.le_refl _⟩
        show lookupSession (casUpdate t.sessions sid2 pcount) sid = some c
        rw [lookupSession_casUpdate, h, Option.map_some', if_neg hg]
  | joinCreate sid2 hf =>
      refine ⟨c, ?_, Nat.le_refl c, Nat.le_refl _, Nat.le_refl _⟩
      show lookupSession (t.sessions ++ [(sid2, 1)]) sid = some c
      rw [lookupSession_append, h]
      rfl
  | moveInsert m =>
      refine ⟨c, h, Nat.le_refl c, ?_, ?_⟩
      · show moveCount t.moves sid ≤ moveCount (t.moves ++ [m]) sid
        rw [moveCount_append]
        exact Nat.le_add_right _ _
      · show phaseRank (phaseOf maxP c (moveCount t.moves sid)) ≤
          phaseRank (phaseOf maxP c (moveCount (t.moves ++ [m]) sid))
        rw [moveCount_append]
        exact phaseRank_mono_moves (Nat.le_add_right _ _)

theorem steps_session_mono {maxP : Nat} {s t : Store}
    (h : Relation.ReflTransGen (Step maxP) s t) (sid : String) {c : Nat}
    (hl : lookupSession s.sessions sid = some c) :
    ∃ c2, lookupSession t.sessions sid = some c2 ∧ c ≤ c2 ∧
      moveCount s.moves sid ≤ moveCount t.moves sid ∧
      phaseRank (phaseOf maxP c (moveCount s.moves sid)) ≤
        phaseRank (phaseOf maxP c2 (moveCount t.moves sid)) := by
  induction h with
  | refl => exact ⟨c, hl, Nat.le_refl _, Nat.le_refl _, Nat.le_refl _⟩
  | tail h1 h2 ih =>
      obtain ⟨c2, hl2, hc2, hm2, hr2⟩ := ih
      obtain ⟨c3, hl3, hc3, hm3, hr3⟩ := step_session_mono h2 sid hl2
      exact ⟨c3, hl3, Nat.le_trans hc2 hc3, Nat.le_trans hm2 hm3,
        Nat.le_trans hr2 hr3⟩

theorem steps_findMove {maxP : Nat} {s t : Store}
    (h : Relation.ReflTransGen (Step maxP) s t) {sid pid c : String}
    (hf : findMove s.moves sid pid = some c) :
    findMove t.moves sid pid = some c := by
  induction h with
  | refl => exact hf
  | tail h1 h2 ih => exact step_findMove h2 ih

/-! ### Lemmas about the join path -/

theorem insertFresh_inv {s : Store} {ids : List String} {sid : String}
    {t : Store} (h : insertFresh s ids = some (sid, t)) :
    sid ∈ ids ∧ lookupSession s.sessions sid = none ∧
      t = ⟨s.sessions ++ [(sid, 1)], s.moves⟩ := by
  induction ids with
  | nil => exact Option.noConfusion h
  | cons i rest ih =>
      unfold insertFresh at h
      split at h
      case isTrue hc =>
        obtain ⟨h1, h2, h3⟩ := ih h
        exact ⟨List.mem_cons_of_mem i h1, h2, h3⟩
      case isFalse hc =>
        injection h with h2
        injection h2 with ha hb
        subst ha
        subst hb
        refine ⟨List.mem_cons_self i rest, ?_, rfl⟩
        cases ho : lookupSession s.sessions i with
        | none => rfl
        | some v =>
            rw [ho] at hc
            exact absurd rfl hc

theorem insertFresh_isSome {s : Store} {ids : List String} {i : String}
    (hmem : i ∈ ids) (hfresh : lookupSession s.sessions i = none) :
    ∃ p, insertFresh s ids = some p := by
  induction ids with
  | nil => cases hmem
  | cons j rest ih =>
      unfold insertFresh
      split
      case isTrue hc =>
        rcases List.mem_cons.mp hmem with rfl | h1
        · rw [hfresh] at hc
          exact absurd hc (by simp)
        · exact ih h1
      case isFalse hc => exact ⟨_, rfl⟩

theorem selectOpen_some {maxP : Nat} {s : Store} {r : String × Nat}
    (h : selectOpen maxP s = some r) :
    r ∈ s.sessions ∧ r.2 < maxP ∧
      ∀ e ∈ s.sessions, e.2 < maxP → e.2 ≤ r.2 := by
  have hmem : r ∈ s.sessions.filter (fun e => decide (e.2 < maxP)) :=
    List.argmax_mem (Option.mem_def.mpr h)
  have h1 := List.mem_filter.mp hmem
  refine ⟨h1.1, by simpa using h1.2, ?_⟩
  intro e he hlt
  have he2 : e ∈ s.sessions.filter (fun e => decide (e.2 < maxP)) :=
    List.mem_filter.mpr ⟨he, by simpa using hlt⟩
  exact Nat.le_of_not_lt
    (List.not_lt_of_mem_argmax he2 (Option.mem_def.mpr h))

theorem selectOpen_none {maxP : Nat} {s : Store} (h : selectOpen maxP s = none) :
    ∀ e ∈ s.sessions, maxP ≤ e.2 := by
  intro e he
  have h2 : s.sessions.filter (fun e => decide (e.2 < maxP)) = [] :=
    List.argmax_eq_none.mp h
  have h3 := List.filter_eq_nil_iff.mp h2 e he
  exact Nat.le_of_not_lt (by simpa using h3)

theorem selectOpen_isSome_of_open {maxP : Nat} {s : Store} {e : String × Nat}
    (he : e ∈ s.sessions) (hlt : e.2 < maxP) :
    ∃ r, selectOpen maxP s = some r := by
  cases hr : selectOpen maxP s with
  | some r => exact ⟨r, rfl⟩
  | none => exact absurd hlt (Nat.not_lt.mpr (selectOpen_none hr e he))

/-- Every successful sequential `join_session` returns the player id it was
given and mutates the store by exactly one `Step`; this ties the sequential
API to the concurrent over-approximation. -/
theorem join_session_some_steps {maxP : Nat} {s : Store} {pid : String}
    {ids : List String} {sid pid2 : String} {t : Store}
    (h : join_session maxP s pid ids = some (sid, pid2, t)) :
    pid2 = pid ∧ Relation.ReflTransGen (Step maxP) s t := by
  unfold join_session at h
  cases hsel : selectOpen maxP s with
  | some r =>
      rw [hsel] at h
      injection h with h2
      injection h2 with ha hb
      injection hb with hb1 hb2
      subst ha
      subst hb1
      subst hb2
      have hlt : r.2 < maxP := (selectOpen_some hsel).2.1
      exact ⟨rfl, Relation.ReflTransGen.single (Step.joinCAS s r.1 r.2 hlt)⟩
  | none =>
      rw [hsel] at h
      obtain ⟨⟨sid0, t0⟩, hif, hmap⟩ := Option.map_eq_some'.mp h
      obtain ⟨hmem, hnone, ht0⟩ := insertFresh_inv hif
      subst ht0
      injection hmap with ha hb
      injection hb with hb1 hb2
      subst ha
      subst hb1
      subst hb2
      exact ⟨rfl, Relation.ReflTransGen.single (Step.joinCreate s _ hnone)⟩

/-- Every successful `save_move` mutates the store by exactly one `Step`. -/
theorem save_move_ok_step {maxP : Nat} {s t : Store} {sid pid choice : String}
    (h : save_move maxP s sid pid choice = .ok t) : Step maxP s t := by
  obtain ⟨p, h1, h2, h3, h4, rfl⟩ := save_move_ok_inv h
  exact Step.moveInsert s ⟨sid, pid, choice⟩

/-! ### Claim theorems -/

/-- C1: For every sequence of `join()` calls (modelled by the `Step`
relation, which over-approximates arbitrary interleavings of the
conditional-update and insert primitives of `join_session`), no session's
`player_count` ever exceeds `MAX_PLAYERS`: every store reachable from the
empty store satisfies `0 ≤ player_count ≤ MAX_PLAYERS` for every session
row.  `MAX_PLAYERS` is a positive integer by configuration. -/
theorem claim_C1_capacity_invariant (maxP : Nat) (hmax : 0 < maxP)
    (s : Store) (h : Reachable maxP s) :
    ∀ e ∈ s.sessions, 0 ≤ e.2 ∧ e.2 ≤ maxP := by
  have hb : ∀ e ∈ s.sessions, e.2 ≤ maxP := by
    unfold Reachable at h
    induction h with
    | refl => intro e he; cases he
    | tail h1 h2 ih => exact step_counts_bounded h2 hmax ih
  exact fun e he => ⟨Nat.zero_le _, hb e he⟩

/-- Witness for C1 at `MAX_PLAYERS = 2` and the store reached by one
session-creating join, instantiated at its single session row. -/
theorem claim_C1_capacity_invariant_witness :
    0 ≤ (("A", 1) : String × Nat).2 ∧ (("A", 1) : String × Nat).2 ≤ 2 :=
  claim_C1_capacity_invariant 2 (by decide) ⟨[("A", 1)], []⟩
    (Relation.ReflTransGen.single (Step.joinCreate ⟨[], []⟩ "A" rfl))
    ("A", 1) (by decide)

/-- C2: `get_state` fails with the NotFound `ValueError` exactly on an
unknown `session_id`, and on success its phase is derived from the live
players and moves counts by the rule: `waiting_for_opponent` if
`players < MAX_PLAYERS`, else `waiting_for_moves` if `moves < players`,
else `finished`. -/
theorem claim_C2_get_state_phase (maxP : Nat) (s : Store) (sid : String) :
    (lookupSession s.sessions sid = none →
      get_state maxP s sid = .error ("Unknown session_id: " ++ sid)) ∧
    ∀ st, get_state maxP s sid = .ok st →
      lookupSession s.sessions sid = some st.players ∧
      st.moves = moveCount s.moves sid ∧
      (st.players < maxP → st.phase = "waiting_for_opponent") ∧
      (maxP ≤ st.players → st.moves < st.players →
        st.phase = "waiting_for_moves") ∧
      (maxP ≤ st.players → st.players ≤ st.moves → st.phase = "finished") := by
  constructor
  · exact get_state_eq_none
  · intro st h
    cases hl : lookupSession s.sessions sid with
    | none =>
        rw [get_state_eq_none hl] at h
        exact Except.noConfusion h
    | some p =>
        rw [get_state_eq_some hl] at h
        injection h with h2
        subst h2
        exact ⟨rfl, rfl, fun hp => phaseOf_eq_wfo.mpr hp,
          fun h1 h2x => phaseOf_eq_wfm.mpr ⟨h1, h2x⟩,
          fun h1 h2x => phaseOf_eq_fin.mpr ⟨h1, h2x⟩⟩

/-- Witness for C2: an unknown id yields the NotFound error; known stores
with one move out of two players, and with two moves, exercise the
`waiting_for_moves` and `finished` branches of the rule. -/
theorem claim_C2_get_state_phase_witness :
    get_state 2 ⟨[("S", 2)], [⟨"S", "A", "Cooperate"⟩]⟩ "Z" =
      .error ("Unknown session_id: " ++ "Z") ∧
    (⟨2, 1, "waiting_for_moves"⟩ : GameState).phase = "waiting_for_moves" ∧
    (⟨2, 2, "finished"⟩ : GameState).phase = "finished" :=
  ⟨(claim_C2_get_state_phase 2 ⟨[("S", 2)], [⟨"S", "A", "Cooperate"⟩]⟩ "Z").1
      rfl,
   ((claim_C2_get_state_phase 2 ⟨[("S", 2)], [⟨"S", "A", "Cooperate"⟩]⟩
      "S").2 ⟨2, 1, "waiting_for_moves"⟩ rfl).2.2.2.1 (by decide) (by decide),
   ((claim_C2_get_state_phase 2
      ⟨[("S", 2)], [⟨"S", "A", "x"⟩, ⟨"S", "B", "y"⟩]⟩
      "S").2 ⟨2, 2, "finished"⟩ rfl).2.2.2.2 (by decide) (by decide)⟩

/-- C7: every sequential `join_session` call returns successfully, with the
caller's player id: as soon as the UUID supply contains one id that does not
collide with an existing session (UUID4 freshness), the loop terminates with
a success — a failed conditional update or id collision only causes retries,
and no error (in particular no transient-conflict error) is ever surfaced:
the return type of `join_session` has no error outcome at all. -/
theorem claim_C7_join_terminates (maxP : Nat) (s : Store) (pid : String)
    (ids : List String) (h : ∃ i ∈ ids, lookupSession s.sessions i = none) :
    ∃ sid t, join_session maxP s pid ids = some (sid, pid, t) := by
  obtain ⟨i, hmem, hfresh⟩ := h
  cases hsel : selectOpen maxP s with
  | some r =>
      exact ⟨r.1, ⟨casUpdate s.sessions r.1 r.2, s.moves⟩,
        by unfold join_session; rw [hsel]⟩
  | none =>
      obtain ⟨⟨sid0, t0⟩, hif⟩ := insertFresh_isSome hmem hfresh
      exact ⟨sid0, t0, by unfold join_session; rw [hsel, hif]; rfl⟩

/-- Witness for C7: a join on the empty store with one fresh UUID
succeeds. -/
theorem claim_C7_join_terminates_witness :
    (join_session 2 ⟨[], []⟩ "P" ["W"]).isSome = true := by
  obtain ⟨sid, t, h⟩ :=
    claim_C7_join_terminates 2 ⟨[], []⟩ "P" ["W"] ⟨"W", by simp, rfl⟩
  rw [h]
  rfl

/-- C9: the derived phase never regresses along any sequence of core
operations (each mutation of `join_session` and `save_move` is a `Step`, as
`join_session_some_steps` and `save_move_ok_step` show; `get_state` and
`get_results` do not write): along any `Step` chain a session's
`player_count` only grows, its moves count only grows, and the rank of its
derived phase in `waiting_for_opponent → waiting_for_moves → finished` is
monotone. -/
theorem claim_C9_phase_monotone (maxP : Nat) (s t : Store)
    (h : Relation.ReflTransGen (Step maxP) s t) (sid : String) (c : Nat)
    (hl : lookupSession s.sessions sid = some c) :
    ∃ c2, lookupSession t.sessions sid = some c2 ∧ c ≤ c2 ∧
      moveCount s.moves sid ≤ moveCount t.moves sid ∧
      phaseRank (phaseOf maxP c (moveCount s.moves sid)) ≤
        phaseRank (phaseOf maxP c2 (moveCount t.moves sid)) :=
  steps_session_mono h sid hl

/-- Witness for C9: the second joiner's conditional update takes session S
from 1 player to 2; the phase rank does not decrease. -/
theorem claim_C9_phase_monotone_witness :
    phaseRank (phaseOf 2 1 (moveCount [] "S")) ≤
      phaseRank (phaseOf 2 2 (moveCount [] "S")) := by
  obtain ⟨c2, hl, hc, hm, hr⟩ :=
    claim_C9_phase_monotone 2 ⟨[("S", 1)], []⟩ ⟨[("S", 2)], []⟩
      (Relation.ReflTransGen.single
        (Step.joinCAS ⟨[("S", 1)], []⟩ "S" 1 (by decide)))
      "S" 1 rfl
  have hl2 : (2 : Nat) = c2 := Option.some.inj (by rw [← hl]; rfl)
  rw [← hl2] at hr
  exact hr

/-- C10: `save_move` never checks that `player_id` belongs to the session —
the data model does not even record which players joined which session, only
a count — so in phase `waiting_for_moves` any player id without a prior move
row for the session (joined or not) is accepted and inserted; and whenever a
session's moves count exceeds its player count (which interleaved
`save_move` calls can produce, since the phase read and the insert are
separate), `get_state` still reports phase `finished`. -/
theorem claim_C10_no_membership_check (maxP : Nat) (s : Store)
    (sid pid choice : String) :
    (∀ st, get_state maxP s sid = .ok st → st.phase = "waiting_for_moves" →
      hasMove s.moves sid pid = false →
      save_move maxP s sid pid choice =
        .ok ⟨s.sessions, s.moves ++ [⟨sid, pid, choice⟩]⟩) ∧
    (∀ st, get_state maxP s sid = .ok st → maxP ≤ st.players →
      st.players < st.moves → st.phase = "finished") := by
  constructor
  · intro st hok hph hdup
    cases hl : lookupSession s.sessions sid with
    | none =>
        rw [get_state_eq_none hl] at hok
        exact Except.noConfusion hok
    | some p =>
        rw [get_state_eq_some hl] at hok
        injection hok with h2
        subst h2
        obtain ⟨h1, h2x⟩ := phaseOf_eq_wfm.mp hph
        exact save_move_eq_ins hl h1 h2x hdup
  · intro st hok h1 h2
    cases hl : lookupSession s.sessions sid with
    | none =>
        rw [get_state_eq_none hl] at hok
        exact Except.noConfusion hok
    | some p =>
        rw [get_state_eq_some hl] at hok
        injection hok with h3
        subst h3
        exact phaseOf_eq_fin.mpr ⟨h1, Nat.le_of_lt h2⟩

/-- Witness for C10: the never-joined token GHOST is accepted into a full
session, and a session with 3 moves but 2 players still reports finished. -/
theorem claim_C10_no_membership_check_witness :
    save_move 2 ⟨[("S", 2)], [⟨"S", "A", "x"⟩]⟩ "S" "GHOST" "y" =
      .ok ⟨[("S", 2)], [⟨"S", "A", "x"⟩, ⟨"S", "GHOST", "y"⟩]⟩ ∧
    (⟨2, 3, "finished"⟩ : GameState).phase = "finished" :=
  ⟨(claim_C10_no_membership_check 2 ⟨[("S", 2)], [⟨"S", "A", "x"⟩]⟩
      "S" "GHOST" "y").1 ⟨2, 1, "waiting_for_moves"⟩ rfl rfl rfl,
   (claim_C10_no_membership_check 2
      ⟨[("S", 2)], [⟨"S", "A", "a"⟩, ⟨"S", "B", "b"⟩, ⟨"S", "C", "c"⟩]⟩
      "S" "q" "y").2 ⟨2, 3, "finished"⟩ rfl (by decide) (by decide)⟩

/-- C3 counterexample: with MAX_PLAYERS = 2, a `saveMove` by P2 that fills
the session succeeds; the repeat `saveMove` by P2 is then rejected with the
InvalidState (finished) `ValueError`, not the DuplicateMove one, because
`save_move` checks the phase before attempting the insert. -/
theorem claim_C3_counterexample :
    save_move 2 ⟨[("S", 2)], [⟨"S", "P1", "Cooperate"⟩]⟩ "S" "P2" "Defect" =
      .ok ⟨[("S", 2)], [⟨"S", "P1", "Cooperate"⟩, ⟨"S", "P2", "Defect"⟩]⟩ ∧
    save_move 2 ⟨[("S", 2)], [⟨"S", "P1", "Cooperate"⟩, ⟨"S", "P2", "Defect"⟩]⟩
      "S" "P2" "Defect" =
      .error "Session already finished; no further moves accepted." ∧
    ("Session already finished; no further moves accepted." : String) ≠
      "Duplicate move or invalid session." :=
  ⟨rfl, rfl, by decide⟩

/-- C3 (amended): after a successful `saveMove(sid, pid, c1)`, any later
`saveMove(sid, pid, c2)` fails, regardless of `c2`, and the error is
discriminated by the session's derived phase at the second call: the phase
is then necessarily `waiting_for_moves` or `finished`, the call fails with
DuplicateMove in the former case and with InvalidState in the latter; and
the stored move row for `(sid, pid)` still carries choice `c1` at the later
call (the failed call itself changes nothing: its transaction is rolled
back and no store is returned). -/
theorem claim_C3_repeat_rejected (maxP : Nat) (s : Store)
    (sid pid c1 : String) (s1 s2 : Store) (c2 : String)
    (h1 : save_move maxP s sid pid c1 = .ok s1)
    (h2 : Relation.ReflTransGen (Step maxP) s1 s2) :
    (∀ st, get_state maxP s2 sid = .ok st →
      (st.phase = "waiting_for_moves" →
        save_move maxP s2 sid pid c2 =
          .error "Duplicate move or invalid session.") ∧
      (st.phase = "finished" →
        save_move maxP s2 sid pid c2 =
          .error "Session already finished; no further moves accepted.") ∧
      (st.phase = "waiting_for_moves" ∨ st.phase = "finished")) ∧
    findMove s2.moves sid pid = some c1 := by
  obtain ⟨p, hl, hp, hmv, hdup, rfl⟩ := save_move_ok_inv h1
  have hfm1 : findMove (s.moves ++ [⟨sid, pid, c1⟩]) sid pid = some c1 := by
    unfold findMove
    rw [List.find?_append]
    have hnone : s.moves.find?
        (fun m => m.session_id == sid && m.player_id == pid) = none := by
      rw [List.find?_eq_none]
      exact fun x hx hpx => (List.any_eq_false.mp hdup x hx) hpx
    rw [hnone]
    simp
  obtain ⟨p2, hl2, hple, hmc, hrank⟩ := steps_session_mono h2 sid hl
  have hp2 : maxP ≤ p2 := Nat.le_trans hp hple
  have hfm2 : findMove s2.moves sid pid = some c1 := steps_findMove h2 hfm1
  have hdup2 : hasMove s2.moves sid pid = true := by
    unfold findMove at hfm2
    obtain ⟨row, hfind, hch⟩ := Option.map_eq_some'.mp hfm2
    unfold hasMove
    rw [List.any_eq_true]
    have hrow := List.find?_some hfind
    exact ⟨row, List.mem_of_find?_eq_some hfind, by simpa using hrow⟩
  refine ⟨?_, hfm2⟩
  intro st hok
  rw [get_state_eq_some hl2] at hok
  injection hok with h3
  subst h3
  refine ⟨fun hph => ?_, fun hph => ?_, ?_⟩
  · obtain ⟨ha, hb⟩ := phaseOf_eq_wfm.mp hph
    exact save_move_eq_dup hl2 hp2 hb hdup2
  · obtain ⟨ha, hb⟩ := phaseOf_eq_fin.mp hph
    exact save_move_eq_fin hl2 hp2 hb
  · by_cases hfin : moveCount s2.moves sid < p2
    · exact Or.inl (phaseOf_eq_wfm.mpr ⟨hp2, hfin⟩)
    · exact Or.inr (phaseOf_eq_fin.mpr ⟨hp2, Nat.le_of_not_lt hfin⟩)

/-- Witness for C3 (amended): player A moves into an open two-player
session; the phase at the repeat call is still `waiting_for_moves`, so the
repeat is rejected with DuplicateMove and A's stored choice survives. -/
theorem claim_C3_repeat_rejected_witness :
    save_move 2 ⟨[("S", 2)], [⟨"S", "A", "Cooperate"⟩]⟩ "S" "A" "Defect" =
      .error "Duplicate move or invalid session." ∧
    findMove [⟨"S", "A", "Cooperate"⟩] "S" "A" = some "Cooperate" := by
  have h := claim_C3_repeat_rejected 2 ⟨[("S", 2)], []⟩ "S" "A" "Cooperate"
    ⟨[("S", 2)], [⟨"S", "A", "Cooperate"⟩]⟩
    ⟨[("S", 2)], [⟨"S", "A", "Cooperate"⟩]⟩ "Defect" rfl
    Relation.ReflTransGen.refl
  exact ⟨(h.1 ⟨2, 1, "waiting_for_moves"⟩ rfl).1 rfl, h.2⟩

/-- C4 counterexample: a session in phase `waiting_for_moves` (so neither
`waiting_for_opponent` nor `finished`) where the caller already has a move:
`save_move` does not insert the row, it fails with the DuplicateMove
`ValueError` — contradicting the claim's unconditional "otherwise it inserts
the move row". -/
theorem claim_C4_counterexample :
    get_state 2 ⟨[("S", 2)], [⟨"S", "A", "x"⟩]⟩ "S" =
      .ok ⟨2, 1, "waiting_for_moves"⟩ ∧
    save_move 2 ⟨[("S", 2)], [⟨"S", "A", "x"⟩]⟩ "S" "A" "y" =
      .error "Duplicate move or invalid session." :=
  ⟨rfl, rfl⟩

/-- C4 (amended): `save_move` fails with the NotFound `ValueError`
(propagated from `get_state`) on an unknown session; fails with the
InvalidState `ValueError` and inserts nothing when the derived phase is
`waiting_for_opponent` or `finished`; otherwise it attempts the insert —
failing with the DuplicateMove `ValueError` and inserting nothing when a
`(session_id, player_id)` row already exists, and appending the move row
when not. -/
theorem claim_C4_save_move_dispatch (maxP : Nat) (s : Store)
    (sid pid choice : String) :
    (lookupSession s.sessions sid = none →
      save_move maxP s sid pid choice =
        .error ("Unknown session_id: " ++ sid)) ∧
    ∀ st, get_state maxP s sid = .ok st →
      (st.phase = "waiting_for_opponent" →
        save_move maxP s sid pid choice =
          .error ("Cannot submit moves until " ++ toString maxP ++
            " players have joined.")) ∧
      (st.phase = "finished" →
        save_move maxP s sid pid choice =
          .error "Session already finished; no further moves accepted.") ∧
      (st.phase = "waiting_for_moves" →
        (hasMove s.moves sid pid = true →
          save_move maxP s sid pid choice =
            .error "Duplicate move or invalid session.") ∧
        (hasMove s.moves sid pid = false →
          save_move maxP s sid pid choice =
            .ok ⟨s.sessions, s.moves ++ [⟨sid, pid, choice⟩]⟩)) := by
  refine ⟨fun h => save_move_eq_none h, ?_⟩
  intro st hok
  cases hl : lookupSession s.sessions sid with
  | none =>
      rw [get_state_eq_none hl] at hok
      exact Except.noConfusion hok
  | some p =>
      rw [get_state_eq_some hl] at hok
      injection hok with h2
      subst h2
      refine ⟨fun hph => save_move_eq_wfo hl (phaseOf_eq_wfo.mp hph),
        fun hph => ?_, fun hph => ?_⟩
      · obtain ⟨ha, hb⟩ := phaseOf_eq_fin.mp hph
        exact save_move_eq_fin hl ha hb
      · obtain ⟨ha, hb⟩ := phaseOf_eq_wfm.mp hph
        exact ⟨fun hd => save_move_eq_dup hl ha hb hd,
          fun hd => save_move_eq_ins hl ha hb hd⟩

/-- Witness for C4 (amended): the NotFound, InvalidState
(`waiting_for_opponent`) and successful-insert branches at concrete
stores. -/
theorem claim_C4_save_move_dispatch_witness :
    save_move 2 ⟨[("S", 1)], []⟩ "Z" "P" "c" =
      .error ("Unknown session_id: " ++ "Z") ∧
    save_move 2 ⟨[("S", 1)], []⟩ "S" "P" "c" =
      .error ("Cannot submit moves until " ++ toString 2 ++
        " players have joined.") ∧
    save_move 2 ⟨[("S", 2)], []⟩ "S" "P" "c" =
      .ok ⟨[("S", 2)], [⟨"S", "P", "c"⟩]⟩ :=
  ⟨(claim_C4_save_move_dispatch 2 ⟨[("S", 1)], []⟩ "Z" "P" "c").1 rfl,
   ((claim_C4_save_move_dispatch 2 ⟨[("S", 1)], []⟩ "S" "P" "c").2
      ⟨1, 0, "waiting_for_opponent"⟩ rfl).1 rfl,
   (((claim_C4_save_move_dispatch 2 ⟨[("S", 2)], []⟩ "S" "P" "c").2
      ⟨2, 0, "waiting_for_moves"⟩ rfl).2.2 rfl).2 rfl⟩

/-- C5: `join_session` implements fill-before-create.  Whenever an open
session (`player_count < MAX_PLAYERS`) exists the `SELECT` returns one, and
it is a session of maximal `player_count` among the open ones; the
conditional update then increments exactly that session's count and no row
is inserted.  Only when no open session exists does `join_session` insert a
brand-new session with `player_count = 1` under a fresh id taken from the
UUID supply (retrying past colliding ids).  The store's primary-key
invariant (no duplicate session ids) is assumed. -/
theorem claim_C5_fill_before_create (maxP : Nat) (s : Store) (pid : String)
    (ids : List String) (hnd : (s.sessions.map Prod.fst).Nodup) :
    ((∃ e ∈ s.sessions, e.2 < maxP) → ∃ r, selectOpen maxP s = some r) ∧
    (∀ r, selectOpen maxP s = some r →
      r ∈ s.sessions ∧ r.2 < maxP ∧
      (∀ e ∈ s.sessions, e.2 < maxP → e.2 ≤ r.2) ∧
      join_session maxP s pid ids =
        some (r.1, pid, ⟨casUpdate s.sessions r.1 r.2, s.moves⟩) ∧
      lookupSession (casUpdate s.sessions r.1 r.2) r.1 = some (r.2 + 1) ∧
      (casUpdate s.sessions r.1 r.2).length = s.sessions.length) ∧
    (selectOpen maxP s = none →
      (∀ e ∈ s.sessions, maxP ≤ e.2) ∧
      ∀ sid pid2 t, join_session maxP s pid ids = some (sid, pid2, t) →
        pid2 = pid ∧ sid ∈ ids ∧ lookupSession s.sessions sid = none ∧
        t = ⟨s.sessions ++ [(sid, 1)], s.moves⟩ ∧
        lookupSession t.sessions sid = some 1) := by
  refine ⟨?_, ?_, ?_⟩
  · rintro ⟨e, he, hlt⟩
    exact selectOpen_isSome_of_open he hlt
  · intro r hsel
    obtain ⟨hmem, hlt, hmax⟩ := selectOpen_some hsel
    refine ⟨hmem, hlt, hmax, ?_, ?_, ?_⟩
    · unfold join_session
      rw [hsel]
    · have hlook : lookupSession s.sessions r.1 = some r.2 :=
        lookupSession_of_mem_nodup hnd hmem
      rw [lookupSession_casUpdate, hlook, Option.map_some',
        if_pos ⟨rfl, rfl⟩]
    · unfold casUpdate
      exact List.length_map _ _
  · intro hsel
    refine ⟨selectOpen_none hsel, ?_⟩
    intro sid pid2 t hj
    unfold join_session at hj
    rw [hsel] at hj
    obtain ⟨⟨sid0, t0⟩, hif, hmap⟩ := Option.map_eq_some'.mp hj
    obtain ⟨hmem2, hnone2, ht0⟩ := insertFresh_inv hif
    subst ht0
    injection hmap with ha hb
    injection hb with hb1 hb2
    subst ha
    subst hb1
    subst hb2
    refine ⟨rfl, hmem2, hnone2, rfl, ?_⟩
    show lookupSession (s.sessions ++ [(sid0, 1)]) sid0 = some 1
    rw [lookupSession_append, hnone2]
    simp [lookupSession]

/-- Witness for C5: with sessions A (full) and B (one seat free), join
increments B; with only a full session, join creates a fresh session N with
one player. -/
theorem claim_C5_fill_before_create_witness :
    join_session 2 ⟨[("A", 2), ("B", 1)], []⟩ "P" ["N"] =
      some ("B", "P", ⟨[("A", 2), ("B", 2)], []⟩) ∧
    lookupSession [("F", 2), ("N", 1)] "N" = some 1 :=
  ⟨((claim_C5_fill_before_create 2 ⟨[("A", 2), ("B", 1)], []⟩ "P" ["N"]
      (by decide)).2.1 ("B", 1) rfl).2.2.2.1,
   (((claim_C5_fill_before_create 2 ⟨[("F", 2)], []⟩ "P" ["N"]
      (by decide)).2.2 rfl).2 "N" "P" ⟨[("F", 2), ("N", 1)], []⟩
      rfl).2.2.2.2⟩

/-- C6: `get_results` lists a session's moves as `{player, choice}` records
in strict insertion order — each successful `save_move` appends exactly one
record at the end — returns the empty sequence when the session has no
moves, and never gates on phase or existence (it is a total function). -/
theorem claim_C6_get_results_order (maxP : Nat) (s : Store)
    (sid pid choice : String) (t : Store) :
    (save_move maxP s sid pid choice = .ok t →
      get_results t sid = get_results s sid ++ [⟨pid, choice⟩]) ∧
    ((∀ m ∈ s.moves, m.session_id ≠ sid) → get_results s sid = []) := by
  constructor
  · intro h
    obtain ⟨p, _, _, _, _, rfl⟩ := save_move_ok_inv h
    unfold get_results
    rw [List.filter_append, List.map_append]
    simp
  · intro h
    unfold get_results
    have h2 : ∀ m ∈ s.moves, ¬((m.session_id == sid) = true) :=
      fun m hm hc => h m hm (by simpa using hc)
    rw [List.filter_eq_nil_iff.mpr h2]
    rfl

/-- Witness for C6: the spec's two-move scenario — after p1 then p2 move,
the results are exactly those two records in that order — and the empty
case. -/
theorem claim_C6_get_results_order_witness :
    get_results
      ⟨[("S", 2)], [⟨"S", "p1", "Cooperate"⟩, ⟨"S", "p2", "Defect"⟩]⟩ "S" =
      get_results ⟨[("S", 2)], [⟨"S", "p1", "Cooperate"⟩]⟩ "S" ++
        [⟨"p2", "Defect"⟩] ∧
    get_results ⟨[("S", 2)], []⟩ "S" = [] :=
  ⟨(claim_C6_get_results_order 2 ⟨[("S", 2)], [⟨"S", "p1", "Cooperate"⟩]⟩
      "S" "p2" "Defect"
      ⟨[("S", 2)], [⟨"S", "p1", "Cooperate"⟩, ⟨"S", "p2", "Defect"⟩]⟩).1 rfl,
   (claim_C6_get_results_order 2 ⟨[("S", 2)], []⟩ "S" "q" "c"
      ⟨[("S", 2)], []⟩).2 (by simp)⟩

/-- C8 counterexample: two duplicate-move failures on different sessions
("AAA" and "BBB") surface the identical fixed `ValueError` message, so the
surfaced error does not carry the offending session_id. -/
theorem claim_C8_counterexample :
    save_move 2 ⟨[("AAA", 2)], [⟨"AAA", "P", "x"⟩]⟩ "AAA" "P" "y" =
      .error "Duplicate move or invalid session." ∧
    save_move 2 ⟨[("BBB", 2)], [⟨"BBB", "P", "x"⟩]⟩ "BBB" "P" "y" =
      .error "Duplicate move or invalid session." :=
  ⟨rfl, rfl⟩

/-- C8 (amended): the surfaced error kinds are distinguishable by their
pairwise-distinct `ValueError` messages — NotFound, InvalidState
(two messages) and DuplicateMove — and only the NotFound message carries the
offending session_id; the InvalidState and DuplicateMove messages are fixed
strings without it (TransientConflict is handled inside the join loop and
never surfaced: `join_session` has no error outcome). -/
theorem claim_C8_error_messages :
    get_state 2 ⟨[], []⟩ "S" = .error ("Unknown session_id: " ++ "S") ∧
    save_move 2 ⟨[("S", 1)], []⟩ "S" "P" "c" =
      .error "Cannot submit moves until 2 players have joined." ∧
    save_move 2 ⟨[("S", 2)], [⟨"S", "A", "x"⟩, ⟨"S", "B", "y"⟩]⟩ "S" "A" "c" =
      .error "Session already finished; no further moves accepted." ∧
    save_move 2 ⟨[("S", 2)], [⟨"S", "A", "x"⟩]⟩ "S" "A" "c" =
      .error "Duplicate move or invalid session." ∧
    ("Unknown session_id: " ++ "S" : String) ≠
      "Cannot submit moves until 2 players have joined." ∧
    ("Unknown session_id: " ++ "S" : String) ≠
      "Session already finished; no further moves accepted." ∧
    ("Unknown session_id: " ++ "S" : String) ≠
      "Duplicate move or invalid session." ∧
    ("Cannot submit moves until 2 players have joined." : String) ≠
      "Session already finished; no further moves accepted." ∧
    ("Cannot submit moves until 2 players have joined." : String) ≠
      "Duplicate move or invalid session." ∧
    ("Session already finished; no further moves accepted." : String) ≠
      "Duplicate move or invalid session." :=
  ⟨rfl, rfl, rfl, rfl, by decide, by decide, by decide, by decide,
    by decide, by decide⟩

end GameDb
